import Mathlib

/-!
Verification of the CommunityEv API-call middleware (`src/middleware/api.js`).

The middleware intercepts Redux actions carrying a call descriptor under the
`CALL_FBOG` marker symbol, validates the descriptor, dispatches a request
action, performs a fetch through `fbsdk.fBfetch`, normalizes the response with
normalizr (`callFbog`), and dispatches a success or failure action.

The development shallowly embeds:
 * JavaScript runtime values relevant to the middleware (`JSVal`);
 * the humps `camelizeKeys` key transformation;
 * the normalizr `normalize`/`visit`/`visitEntity`/`visitObject`/`visitIterable`
   algorithm together with the two schemas declared in `api.js`
   (`pageSchema`, `eventSchema`, and the exported `Schemas`);
 * the middleware itself (`middlewareSync` for the synchronous validation
   phase, `middlewareRun` for a whole invocation given the fetch outcome).
-/

set_option autoImplicit false

namespace CommunityEv

/-- JavaScript runtime values as far as the middleware observes them:
`undefined`, `null`, booleans, numbers (the claims' domain only involves
integral JSON numbers, modelled as `Int`), strings, arrays and plain objects
(association lists of string keys in insertion order). -/
inductive JSVal where
  | undefined
  | null
  | bool (b : Bool)
  | num (n : Int)
  | str (s : String)
  | arr (items : List JSVal)
  | obj (fields : List (String × JSVal))

/-- Object record: string-keyed fields in insertion order. -/
abbrev JRec := List (String × JSVal)

/-- First-match association-list lookup, the observable content of a JS
object's string-keyed properties. -/
def jlookup (fs : JRec) (k : String) : Option JSVal :=
  match fs with
  | [] => none
  | (k2, v) :: rest => if k2 = k then some v else jlookup rest k

/-- JavaScript truthiness on the modelled values. -/
def jsTruthy : JSVal → Bool
  | .undefined => false
  | .null => false
  | .bool b => b
  | .num n => if n = 0 then false else true
  | .str s => if s = "" then false else true
  | .arr _ => true
  | .obj _ => true

/-- lodash `isObject` restricted to the modelled values: arrays and plain
objects (the middleware never reaches `isObject` with a function). -/
def isObject : JSVal → Bool
  | .arr _ => true
  | .obj _ => true
  | _ => false

/-- Whether a value is a string (`typeof v === 'string'`). -/
def isStr : JSVal → Bool
  | .str _ => true
  | _ => false

/-- Whether a value is `null` or `undefined` (property access throws). -/
def isNullOrUndefined : JSVal → Bool
  | .null => true
  | .undefined => true
  | _ => false

mutual

/-- JavaScript property-key coercion `String(v)` for the values that can end
up as an entity id (arrays stringify by joining their elements with commas,
`null`/`undefined` elements becoming empty). -/
def toPropKey : JSVal → String
  | .undefined => "undefined"
  | .null => "null"
  | .bool true => "true"
  | .bool false => "false"
  | .num n => toString n
  | .str s => s
  | .arr items => joinElems items
  | .obj _ => "[object Object]"

/-- `Array.prototype.toString`: elements joined with `","`, `null` and
`undefined` elements becoming empty strings. -/
def joinElems : List JSVal → String
  | [] => ""
  | [.undefined] => ""
  | [.null] => ""
  | [v] => toPropKey v
  | .undefined :: rest => "," ++ joinElems rest
  | .null :: rest => "," ++ joinElems rest
  | v :: rest => toPropKey v ++ "," ++ joinElems rest

end

/-- Decimal value of a digit run (structural recursion, so that property
reads evaluate definitionally). -/
def digitsVal : List Char → Nat → Option Nat
  | [], acc => some acc
  | c :: rest, acc =>
      if c.isDigit then digitsVal rest (acc * 10 + (c.toNat - 48)) else none

/-- Parse a nonempty all-digit property key as a number. -/
def strToNat? (s : String) : Option Nat :=
  if s.data.isEmpty then none else digitsVal s.data 0

/-- JavaScript property read `v[k]` on the values the middleware reads
properties of (never `null`/`undefined`, where JS would throw; on the other
primitives autoboxing yields `undefined` except string `length`/indices,
a canonical index key being one that round-trips through `String`). -/
def getProp (v : JSVal) (k : String) : JSVal :=
  match v with
  | .obj fs => (jlookup fs k).getD .undefined
  | .arr items =>
      if k = "length" then .num (Int.ofNat items.length)
      else
        match strToNat? k with
        | some i => if toString i = k ∧ i < items.length then items.getD i .undefined else .undefined
        | none => .undefined
  | .str s =>
      if k = "length" then .num (Int.ofNat s.length)
      else
        match strToNat? k with
        | some i =>
            if toString i = k ∧ i < s.length then .str (String.mk [s.data.getD i ' ']) else .undefined
        | none => .undefined
  | _ => .undefined

/-! ### humps `camelizeKeys`

`camelize` follows the humps implementation: a string of digits is returned
unchanged; otherwise each run of separators (`-`, `_`, whitespace) together
with the following character is replaced by that character uppercased, and
the first character of the result is lowercased. -/

/-- Separator characters of the humps camelize separator class. -/
def isSep (c : Char) : Bool := c = '-' || c = '_' || c.isWhitespace

/-- Core of the humps separator replacement. -/
def camelizeCore : List Char → List Char
  | [] => []
  | [c] => if isSep c then [] else [c]
  | c :: d :: rest =>
      if isSep c then
        if isSep d then camelizeCore (d :: rest)
        else d.toUpper :: camelizeCore rest
      else c :: camelizeCore (d :: rest)

/-- humps `camelize` on a single key. -/
def camelize (s : String) : String :=
  if s.data ≠ [] ∧ s.data.all Char.isDigit then s
  else
    match camelizeCore s.data with
    | [] => ""
    | c :: rest => String.mk (c.toLower :: rest)

mutual

/-- humps `camelizeKeys`: recursively camelize the keys of every nested
object, mapping over arrays, leaving other values unchanged. -/
def camelizeKeys : JSVal → JSVal
  | .obj fields => .obj (camelizeKeysFields fields)
  | .arr items => .arr (camelizeKeysList items)
  | v => v

/-- `camelizeKeys` over an object's fields. -/
def camelizeKeysFields : List (String × JSVal) → List (String × JSVal)
  | [] => []
  | (k, v) :: rest => (camelize k, camelizeKeys v) :: camelizeKeysFields rest

/-- `camelizeKeys` over an array's elements. -/
def camelizeKeysList : List JSVal → List JSVal
  | [] => []
  | v :: rest => camelizeKeys v :: camelizeKeysList rest

end

/-! ### normalizr

The `api.js` schemas are instances of normalizr's `Schema` (entity schema)
and `arrayOf` (iterable schema). `NSchema` models the JavaScript values that
can occupy a schema position: entity schemas, iterable schemas, plain objects
whose properties are again schema-position values (`objSchema`), and any
non-object value (`prim`, only its truthiness matters to the middleware's
`!schema` check; normalizr's `visit` returns its input unchanged for such a
schema because `isObject(schema)` fails). -/

inductive NSchema where
  | entity (key idAttr : String) (nested : List (String × NSchema))
  | iterable (item : NSchema)
  | objSchema (fields : List (String × NSchema))
  | prim (v : JSVal)

/-- First-match lookup of a nested schema (`schema[key]` on an entity schema
or plain-object schema). -/
def lookupSchema (l : List (String × NSchema)) (k : String) : Option NSchema :=
  match l with
  | [] => none
  | (k2, s) :: rest => if k2 = k then some s else lookupSchema rest k

/-- normalizr guard `isObject(schema) && !Array.isArray(schema)` on
schema-position values (`prim` holds the non-object ones). -/
def schemaIsObj : NSchema → Bool
  | .prim _ => false
  | _ => true

/-- An entity table: id key (stringified) to stored record. -/
abbrev JTable := List (String × JRec)

/-- The normalizr `bag`: entity-type key to entity table. -/
abbrev JBag := List (String × JTable)

/-- Does a table hold an entry for the given id key. -/
def tableHas (t : JTable) (idK : String) : Bool :=
  match t with
  | [] => false
  | (k, _) :: rest => if k = idK then true else tableHas rest idK

/-- First-match table read, defaulting to the empty record. -/
def tableGet (t : JTable) (idK : String) : JRec :=
  match t with
  | [] => []
  | (k, r) :: rest => if k = idK then r else tableGet rest idK

/-- In-place table update, appending when the id key is new. -/
def tableSet (t : JTable) (idK : String) (r : JRec) : JTable :=
  match t with
  | [] => [(idK, r)]
  | (k, r0) :: rest => if k = idK then (k, r) :: rest else (k, r0) :: tableSet rest idK r

/-- First-match bag read, defaulting to the empty table. -/
def bagTable (b : JBag) (key : String) : JTable :=
  match b with
  | [] => []
  | (k, t) :: rest => if k = key then t else bagTable rest key

/-- In-place bag update, appending when the entity key is new. -/
def bagSetTable (b : JBag) (key : String) (t : JTable) : JBag :=
  match b with
  | [] => [(key, t)]
  | (k, t0) :: rest => if k = key then (k, t) :: rest else (k, t0) :: bagSetTable rest key t

/-- `bag[entityKey][id]` read. -/
def bagGet (b : JBag) (key idK : String) : JRec :=
  tableGet (bagTable b key) idK

/-- `bag[entityKey][id] = r` write. -/
def bagSet (b : JBag) (key idK : String) (r : JRec) : JBag :=
  bagSetTable b key (tableSet (bagTable b key) idK r)

/-- The two `hasOwnProperty` guards of `visitEntity`: create the entity table
and the empty placeholder record when missing. -/
def bagEnsure (b : JBag) (key idK : String) : JBag :=
  let t := bagTable b key
  bagSetTable b key (if tableHas t idK then t else tableSet t idK [])

/-- normalizr `mergeIntoEntity(stored, normalized)`: each field of the
normalized record is assigned into the stored record when absent or equal;
on a conflicting value the stored field is kept (a warning is logged). -/
def mergeRecord (a : JRec) : JRec → JRec
  | [] => a
  | (k, v) :: rest => mergeRecord (if (jlookup a k).isNone then a ++ [(k, v)] else a) rest

mutual

/-- normalizr `visit(obj, schema, bag)` with `visitEntity` and
`visitIterable` inlined per input shape. Non-objects pass through unchanged
whatever the schema position holds (and objects with a non-object schema
position pass through, the `prim` default arm). An entity schema reads the
id attribute (`undefined` for an array, there is no such own property),
ensures the placeholder record, normalizes the own enumerable properties
field-wise (index keys for an array), merges the normalized record into the
stored one, and returns the id. An iterable schema maps over an array's
elements, or over a non-array object's values keeping the keys. A
plain-object schema normalizes field-wise. Returns the updated bag with the
normalized value. -/
def visit (bag : JBag) (v : JSVal) (s : NSchema) : JBag × JSVal :=
  match v, s with
  | .obj fields, .entity key idAttr nested =>
      let idK := toPropKey (getProp (.obj fields) idAttr)
      let bag1 := bagEnsure bag key idK
      let p := visitFieldsObj bag1 fields nested
      let stored := bagGet p.1 key idK
      (bagSet p.1 key idK (mergeRecord stored p.2), getProp (.obj fields) idAttr)
  | .arr items, .entity key idAttr nested =>
      let idK := toPropKey (getProp (.arr items) idAttr)
      let bag1 := bagEnsure bag key idK
      let p := visitFieldsArr bag1 0 items nested
      let stored := bagGet p.1 key idK
      (bagSet p.1 key idK (mergeRecord stored p.2), getProp (.arr items) idAttr)
  | .arr items, .iterable item =>
      let p := visitList bag items item
      (p.1, .arr p.2)
  | .obj fields, .iterable item =>
      let p := visitObjVals bag fields item
      (p.1, .obj p.2)
  | .obj fields, .objSchema sf =>
      let p := visitFieldsObj bag fields sf
      (p.1, .obj p.2)
  | .arr items, .objSchema sf =>
      let p := visitFieldsArr bag 0 items sf
      (p.1, .obj p.2)
  | w, _ => (bag, w)

/-- normalizr `visitObject` over an object's fields: a property with a
nested schema is visited recursively, the others are kept unchanged; every
key is kept in iteration order. -/
def visitFieldsObj (bag : JBag) (fields : List (String × JSVal))
    (nested : List (String × NSchema)) : JBag × List (String × JSVal) :=
  match fields with
  | [] => (bag, [])
  | (k, w) :: rest =>
      match lookupSchema nested k with
      | some s2 =>
          let p := visit bag w s2
          let q := visitFieldsObj p.1 rest nested
          (q.1, (k, p.2) :: q.2)
      | none =>
          let q := visitFieldsObj bag rest nested
          (q.1, (k, w) :: q.2)

/-- normalizr `visitObject` over an array's own enumerable properties: the
elements under their index keys `"0"`, `"1"`, ... (`length` is not
enumerable). -/
def visitFieldsArr (bag : JBag) (n : Nat) (items : List JSVal)
    (nested : List (String × NSchema)) : JBag × List (String × JSVal) :=
  match items with
  | [] => (bag, [])
  | w :: rest =>
      match lookupSchema nested (toString n) with
      | some s2 =>
          let p := visit bag w s2
          let q := visitFieldsArr p.1 (n + 1) rest nested
          (q.1, (toString n, p.2) :: q.2)
      | none =>
          let q := visitFieldsArr bag (n + 1) rest nested
          (q.1, (toString n, w) :: q.2)

/-- `visitIterable` over an array's elements. -/
def visitList (bag : JBag) (items : List JSVal) (item : NSchema) : JBag × List JSVal :=
  match items with
  | [] => (bag, [])
  | w :: rest =>
      let p := visit bag w item
      let q := visitList p.1 rest item
      (q.1, p.2 :: q.2)

/-- `visitIterable` over a non-array object's values. -/
def visitObjVals (bag : JBag) (fields : List (String × JSVal)) (item : NSchema) :
    JBag × List (String × JSVal) :=
  match fields with
  | [] => (bag, [])
  | (k, w) :: rest =>
      let p := visit bag w item
      let q := visitObjVals p.1 rest item
      (q.1, (k, p.2) :: q.2)

end

/-- The bag as the JS `entities` object. -/
def tableVal (t : JTable) : JSVal := .obj (t.map (fun p => (p.1, JSVal.obj p.2)))

/-- The bag as the JS `entities` object. -/
def bagVal (b : JBag) : JSVal := .obj (b.map (fun p => (p.1, tableVal p.2)))

/-- normalizr `normalize(obj, schema)` after its two argument guards have
passed (the guards are modelled at the call site in `callFbog`):
`{ entities: bag, result: visit(obj, schema, bag) }`. -/
def normalize (v : JSVal) (s : NSchema) : JSVal :=
  let p := visit [] v s
  .obj [("entities", bagVal p.1), ("result", p.2)]

/-- `eventSchema = new Schema('events', {idAttribute: 'id'})`. -/
def eventSchema : NSchema := .entity "events" "id" []

/-- `pageSchema = new Schema('pages', {idAttribute: 'id'})` after
`pageSchema.define({ events: eventSchema })` — note the scalar `eventSchema`,
not `arrayOf(eventSchema)`. -/
def pageSchema : NSchema := .entity "pages" "id" [("events", eventSchema)]

namespace Schemas

/-- `Schemas.EVENT`. -/
def EVENT : NSchema := eventSchema

/-- `Schemas.EVENT_ARRAY = arrayOf(eventSchema)`. -/
def EVENT_ARRAY : NSchema := .iterable eventSchema

/-- `Schemas.PAGE`. -/
def PAGE : NSchema := pageSchema

/-- `Schemas.PAGE_ARRAY = arrayOf(pageSchema)`. -/
def PAGE_ARRAY : NSchema := .iterable pageSchema

end Schemas

/-! ### The middleware -/

/-- The `endpoint` field of a call descriptor: either a JavaScript function
(invoked on the state snapshot) or any other value. -/
inductive EndpointVal where
  | fnE (f : JSVal → JSVal)
  | valE (v : JSVal)

/-- The call descriptor stored under the `CALL_FBOG` marker symbol. The
`schema` field is a schema-position value (`NSchema.prim` covering non-schema
values, whose truthiness the `!schema` check tests); `types` is an arbitrary
value validated by `Array.isArray`/length/`typeof` checks. -/
structure CallDescriptor where
  endpoint : EndpointVal
  schema : NSchema
  types : JSVal

/-- The `CALL_FBOG` slot of an action: the symbol-keyed attribute may be
absent, present holding `undefined`, or present holding a descriptor. The
middleware's `typeof callAPI === 'undefined'` test cannot tell the first two
apart. -/
inductive MarkerSlot where
  | absent
  | presentUndefined
  | present (c : CallDescriptor)

/-- A dispatched action: its string-keyed fields in insertion order plus the
symbol-keyed `CALL_FBOG` slot. -/
structure Action where
  fields : JRec
  marker : MarkerSlot

/-- JS property read on an action's string-keyed fields. -/
def Action.getF (a : Action) (k : String) : JSVal :=
  (jlookup a.fields k).getD .undefined

/-- `Object.assign(target, base, upd)`: keys of `base` keep their position,
values overridden by `upd` where present; keys only in `upd` are appended in
order. -/
def jsAssign (base upd : JRec) : JRec :=
  base.map (fun p =>
    match jlookup upd p.1 with
    | some v => (p.1, v)
    | none => p) ++
  upd.filter (fun q => (jlookup base q.1).isNone)

/-- `actionWith(data)`: `Object.assign({}, action, data)` followed by
`delete finalAction[CALL_FBOG]` (`Object.assign` copies the symbol-keyed
marker, which the `delete` then strips). -/
def actionWith (a : Action) (data : JRec) : Action :=
  ⟨jsAssign a.fields data, .absent⟩

/-- Outcome of the opaque `fbsdk.fBfetch` capability for one endpoint: the
promise resolves with an `{ok, data}` envelope or rejects with an arbitrary
value. -/
inductive FetchOutcome where
  | resolved (ok : Bool) (data : JSVal)
  | rejected (v : JSVal)

/-- The value the `callFbog` promise chain rejects with before normalization
is attempted: the rejection value of the fetch, or the raw `data` payload
when the envelope's `ok` flag is false. -/
def failureValue : FetchOutcome → Option JSVal
  | .rejected v => some v
  | .resolved false data => some data
  | .resolved true _ => none

/-- A JS `Error` as the failure handler observes it: an object with an own
`message` property. -/
def errorObj (msg : String) : JSVal :=
  .obj [("message", .str msg)]

/-- `callFbog(endpoint, schema)` given the fetch outcome at that endpoint:
reject with the rejection value, reject with the raw `data` when `ok` is
false, otherwise camelize the keys and normalize — `normalize`'s two argument
guards throw (rejecting the chained promise with an `Error`) before
`normalize` proper runs. -/
def callFbog (fetcher : String → FetchOutcome) (endpoint : String) (schema : NSchema) :
    Except JSVal JSVal :=
  match fetcher endpoint with
  | .rejected v => .error v
  | .resolved ok data =>
      if ok = false then .error data
      else
        let camelizedJson := camelizeKeys data
        if isObject camelizedJson = false then
          .error (errorObj "Normalize accepts an object or an array as its input.")
        else if schemaIsObj schema = false then
          .error (errorObj "Normalize accepts an object for schema.")
        else .ok (normalize camelizedJson schema)

/-- Result of the middleware's synchronous phase: pass the action through,
throw a configuration error, or proceed to the fetch with the resolved
endpoint string, the schema and the three action types. -/
inductive SyncResult where
  | pass
  | syncThrow (msg : String)
  | proceed (url : String) (schema : NSchema) (requestType successType failureType : String)

/-- `endpoint` resolution: a function-valued endpoint is invoked on the
current state snapshot; the second component counts the invocations. -/
def resolveEndpoint (state : JSVal) : EndpointVal → JSVal × Nat
  | .fnE f => (f state, 1)
  | .valE v => (v, 0)

/-- The truthiness-relevant value of a schema position (`Schema`/`arrayOf`
instances and plain objects are objects, hence truthy; `prim` carries the
underlying value). -/
def schemaVal : NSchema → JSVal
  | .prim v => v
  | _ => .obj []

/-- Array destructuring `const [a, b, c] = types` reads the indices; the
preceding checks guarantee the elements are strings, so the default arm is
unreachable on validated input. -/
def strAt (l : List JSVal) (i : Nat) : String :=
  match l.getD i .undefined with
  | .str s => s
  | _ => ""

/-- The middleware's synchronous phase: the `typeof callAPI === 'undefined'`
passthrough test, then endpoint resolution and the four validation checks in
source order (endpoint string, schema truthiness, `Array.isArray(types) &&
types.length === 3`, `types.every(type => typeof type === 'string')`), then
destructuring of the three action types. -/
def middlewareSync (state : JSVal) (a : Action) : SyncResult :=
  match a.marker with
  | .absent => .pass
  | .presentUndefined => .pass
  | .present c =>
      match (resolveEndpoint state c.endpoint).1 with
      | .str endpoint =>
          if jsTruthy (schemaVal c.schema) = false then
            .syncThrow "Specify one of the exported Schemas."
          else
            match c.types with
            | .arr l =>
                if l.length ≠ 3 then .syncThrow "Expected an array of three action types."
                else if l.all isStr = false then .syncThrow "Expected action types to be strings."
                else .proceed endpoint c.schema (strAt l 0) (strAt l 1) (strAt l 2)
            | _ => .syncThrow "Expected an array of three action types."
      | _ => .syncThrow "Specify a string endpoint URL."

/-- One whole middleware invocation, given the continuation `nxt`, the fetch
capability, the state snapshot and the action. `passthrough` returns the
continuation's result; `thrown` is a synchronous configuration fault;
`completed` means both the request and a terminal action were forwarded and
the returned promise resolved (with the continuation's result on the terminal
action); `rejectedRun` means only the request action was forwarded and the
returned promise rejected (the failure handler threw reading `.message` of a
`null`/`undefined` failure value). -/
inductive RunResult where
  | passthrough (forwarded : Action) (ret : JSVal)
  | thrown (msg : String)
  | completed (request terminal : Action) (ret : JSVal)
  | rejectedRun (request : Action)

/-- JS `a || b`. -/
def jsOr (a b : JSVal) : JSVal :=
  if jsTruthy a then a else b

/-- The middleware (`export default store => next => action => ...`). -/
def middlewareRun (nxt : Action → JSVal) (fetcher : String → FetchOutcome)
    (state : JSVal) (a : Action) : RunResult :=
  match middlewareSync state a with
  | .pass => .passthrough a (nxt a)
  | .syncThrow msg => .thrown msg
  | .proceed url schema requestType successType failureType =>
      let request := actionWith a [("type", .str requestType)]
      match callFbog fetcher url schema with
      | .ok response =>
          let terminal := actionWith a [("response", response), ("type", .str successType)]
          .completed request terminal (nxt terminal)
      | .error e =>
          if isNullOrUndefined e then .rejectedRun request
          else
            let terminal :=
              actionWith a
                [("type", .str failureType),
                 ("error", jsOr (getProp e "message") (.str "Something bad happened"))]
            .completed request terminal (nxt terminal)

/-- The actions handed to the `next` continuation, in order. -/
def forwardedActions : RunResult → List Action
  | .passthrough a _ => [a]
  | .thrown _ => []
  | .completed request terminal _ => [request, terminal]
  | .rejectedRun request => [request]

/-- The terminal (success-or-failure) action of a run, when one was
forwarded. -/
def terminalOf : RunResult → Option Action
  | .completed _ terminal _ => some terminal
  | _ => none

/-- Whether the asynchronous handle returned by the middleware settled
successfully (for a passthrough, whether the continuation's result was
returned normally). -/
def settles : RunResult → Bool
  | .passthrough _ _ => true
  | .completed _ _ _ => true
  | _ => false

/-- The `types` well-formedness the validation enforces: an array of exactly
three strings. -/
def typesWellFormed : JSVal → Bool
  | .arr l => decide (l.length = 3) && l.all isStr
  | _ => false

/-! ### Observation lemmas -/

/-- First-of-two option choice, the lookup shape of `Object.assign`. -/
def optOr {α : Type} (a b : Option α) : Option α :=
  match a with
  | some v => some v
  | none => b

theorem jlookup_append (A B : JRec) (k : String) :
    jlookup (A ++ B) k = optOr (jlookup A k) (jlookup B k) := by
  induction A with
  | nil => simp [jlookup, optOr]
  | cons p rest ih =>
      obtain ⟨k2, v⟩ := p
      by_cases h : k2 = k <;> simp [jlookup, h, ih, optOr]

theorem jlookup_assignBase (base upd : JRec) (k : String) :
    jlookup
      (base.map (fun p =>
        match jlookup upd p.1 with
        | some v => (p.1, v)
        | none => p)) k
      = (jlookup base k).map (fun v0 => (jlookup upd k).getD v0) := by
  induction base with
  | nil => simp [jlookup]
  | cons p rest ih =>
      obtain ⟨k2, v⟩ := p
      by_cases h : k2 = k
      · subst h
        cases hu : jlookup upd k2 <;> simp [jlookup, hu]
      · cases hu : jlookup upd k2 <;> simp [jlookup, h, hu, ih]

theorem jlookup_assignNew (base upd : JRec) (k : String) :
    jlookup (upd.filter (fun q => (jlookup base q.1).isNone)) k
      = if (jlookup base k).isNone then jlookup upd k else none := by
  induction upd with
  | nil => simp [jlookup]
  | cons q rest ih =>
      obtain ⟨k2, v⟩ := q
      by_cases h : k2 = k
      · subst h
        cases hb : (jlookup base k2).isNone <;>
          simp [List.filter_cons, jlookup, hb, ih]
      · cases hb : (jlookup base k2).isNone <;>
          simp [List.filter_cons, jlookup, h, hb, ih]

/-- Every field of `actionWith(data)`: the payload's value where the payload
has the key, the original action's value everywhere else. -/
theorem getF_actionWith (a : Action) (data : JRec) (k : String) :
    (actionWith a data).getF k =
      match jlookup data k with
      | some v => v
      | none => a.getF k := by
  unfold actionWith Action.getF jsAssign
  rw [jlookup_append, jlookup_assignBase, jlookup_assignNew]
  cases hb : jlookup a.fields k <;> cases hd : jlookup data k <;>
    simp [optOr, hb, hd]

theorem actionWith_marker (a : Action) (data : JRec) :
    (actionWith a data).marker = .absent := rfl

/-! Synchronous-phase lemmas. -/

theorem middlewareSync_pass_absent (state : JSVal) (a : Action)
    (hmk : a.marker = .absent) : middlewareSync state a = .pass := by
  simp [middlewareSync, hmk]

theorem middlewareSync_pass_presentUndefined (state : JSVal) (a : Action)
    (hmk : a.marker = .presentUndefined) : middlewareSync state a = .pass := by
  simp [middlewareSync, hmk]

theorem middlewareSync_proceed (state : JSVal) (a : Action) (c : CallDescriptor)
    (url rT sT fT : String)
    (hmk : a.marker = .present c)
    (hep : (resolveEndpoint state c.endpoint).1 = .str url)
    (hsch : jsTruthy (schemaVal c.schema) = true)
    (hty : c.types = .arr [.str rT, .str sT, .str fT]) :
    middlewareSync state a = .proceed url c.schema rT sT fT := by
  simp [middlewareSync, hmk, hep, hsch, hty, strAt, isStr, List.getD]

theorem middlewareSync_throw_endpoint (state : JSVal) (a : Action) (c : CallDescriptor)
    (hmk : a.marker = .present c)
    (hep : isStr (resolveEndpoint state c.endpoint).1 = false) :
    middlewareSync state a = .syncThrow "Specify a string endpoint URL." := by
  cases h : (resolveEndpoint state c.endpoint).1
  case str s => rw [h] at hep; simp [isStr] at hep
  all_goals simp [middlewareSync, hmk, h]

theorem middlewareSync_throw_schema (state : JSVal) (a : Action) (c : CallDescriptor)
    (url : String)
    (hmk : a.marker = .present c)
    (hep : (resolveEndpoint state c.endpoint).1 = .str url)
    (hsch : jsTruthy (schemaVal c.schema) = false) :
    middlewareSync state a = .syncThrow "Specify one of the exported Schemas." := by
  simp [middlewareSync, hmk, hep, hsch]

theorem middlewareSync_throw_types (state : JSVal) (a : Action) (c : CallDescriptor)
    (hmk : a.marker = .present c)
    (hty : typesWellFormed c.types = false) :
    ∃ msg, middlewareSync state a = .syncThrow msg := by
  cases hep : (resolveEndpoint state c.endpoint).1
  case str url =>
    by_cases hsch : jsTruthy (schemaVal c.schema) = false
    · exact ⟨"Specify one of the exported Schemas.",
        by simp [middlewareSync, hmk, hep, hsch]⟩
    · rw [Bool.not_eq_false] at hsch
      rcases hty2 : c.types with _ | _ | b | n | s2 | l | fs
      · exact ⟨"Expected an array of three action types.",
          by simp [middlewareSync, hmk, hep, hsch, hty2]⟩
      · exact ⟨"Expected an array of three action types.",
          by simp [middlewareSync, hmk, hep, hsch, hty2]⟩
      · exact ⟨"Expected an array of three action types.",
          by simp [middlewareSync, hmk, hep, hsch, hty2]⟩
      · exact ⟨"Expected an array of three action types.",
          by simp [middlewareSync, hmk, hep, hsch, hty2]⟩
      · exact ⟨"Expected an array of three action types.",
          by simp [middlewareSync, hmk, hep, hsch, hty2]⟩
      · by_cases hlen : l.length = 3
        · by_cases hall : l.all isStr = false
          · exact ⟨"Expected action types to be strings.",
              by simp [middlewareSync, hmk, hep, hsch, hty2, hlen, hall]⟩
          · exfalso
            rw [Bool.not_eq_false] at hall
            rw [hty2] at hty
            simp [typesWellFormed, hlen, hall] at hty
        · exact ⟨"Expected an array of three action types.",
            by simp [middlewareSync, hmk, hep, hsch, hty2, hlen]⟩
      · exact ⟨"Expected an array of three action types.",
          by simp [middlewareSync, hmk, hep, hsch, hty2]⟩
  all_goals exact ⟨"Specify a string endpoint URL.",
    by simp [middlewareSync, hmk, hep]⟩

/-! Run-phase lemmas. -/

theorem middlewareRun_pass (nxt : Action → JSVal) (fetcher : String → FetchOutcome)
    (state : JSVal) (a : Action)
    (h : middlewareSync state a = .pass) :
    middlewareRun nxt fetcher state a = .passthrough a (nxt a) := by
  simp [middlewareRun, h]

theorem middlewareRun_throw (nxt : Action → JSVal) (fetcher : String → FetchOutcome)
    (state : JSVal) (a : Action) (msg : String)
    (h : middlewareSync state a = .syncThrow msg) :
    middlewareRun nxt fetcher state a = .thrown msg := by
  simp [middlewareRun, h]

theorem middlewareRun_success (nxt : Action → JSVal) (fetcher : String → FetchOutcome)
    (state : JSVal) (a : Action) (url : String) (sch : NSchema)
    (rT sT fT : String) (response : JSVal)
    (hs : middlewareSync state a = .proceed url sch rT sT fT)
    (hcb : callFbog fetcher url sch = .ok response) :
    middlewareRun nxt fetcher state a =
      .completed (actionWith a [("type", .str rT)])
        (actionWith a [("response", response), ("type", .str sT)])
        (nxt (actionWith a [("response", response), ("type", .str sT)])) := by
  simp [middlewareRun, hs, hcb]

theorem middlewareRun_failure (nxt : Action → JSVal) (fetcher : String → FetchOutcome)
    (state : JSVal) (a : Action) (url : String) (sch : NSchema)
    (rT sT fT : String) (e : JSVal)
    (hs : middlewareSync state a = .proceed url sch rT sT fT)
    (hcb : callFbog fetcher url sch = .error e)
    (he : isNullOrUndefined e = false) :
    middlewareRun nxt fetcher state a =
      .completed (actionWith a [("type", .str rT)])
        (actionWith a
          [("type", .str fT),
           ("error", jsOr (getProp e "message") (.str "Something bad happened"))])
        (nxt (actionWith a
          [("type", .str fT),
           ("error", jsOr (getProp e "message") (.str "Something bad happened"))])) := by
  simp [middlewareRun, hs, hcb, he]

theorem middlewareRun_nullError (nxt : Action → JSVal) (fetcher : String → FetchOutcome)
    (state : JSVal) (a : Action) (url : String) (sch : NSchema)
    (rT sT fT : String) (e : JSVal)
    (hs : middlewareSync state a = .proceed url sch rT sT fT)
    (hcb : callFbog fetcher url sch = .error e)
    (he : isNullOrUndefined e = true) :
    middlewareRun nxt fetcher state a =
      .rejectedRun (actionWith a [("type", .str rT)]) := by
  simp [middlewareRun, hs, hcb, he]

/-- The promise chain of `callFbog` rejects with exactly the failure value
when there is one (rejection value or not-ok `data`). -/
theorem callFbog_error_of_failureValue (fetcher : String → FetchOutcome)
    (url : String) (sch : NSchema) (v : JSVal)
    (hf : failureValue (fetcher url) = some v) :
    callFbog fetcher url sch = .error v := by
  cases ho : fetcher url with
  | rejected w =>
      rw [ho] at hf
      simp [failureValue] at hf
      simp [callFbog, ho, hf]
  | resolved ok data =>
      cases ok <;> rw [ho] at hf <;> simp [failureValue] at hf
      simp [callFbog, ho, hf]

/-- `callFbog` only consults the fetch capability at the endpoint it is
given. -/
theorem callFbog_congr (fetcher1 fetcher2 : String → FetchOutcome)
    (url : String) (sch : NSchema)
    (h : fetcher1 url = fetcher2 url) :
    callFbog fetcher1 url sch = callFbog fetcher2 url sch := by
  unfold callFbog
  rw [h]

/-- Any rejection of the `callFbog` chain carries either the failure value
of the fetch outcome or an `Error` thrown by a `normalize` argument guard. -/
theorem callFbog_error_cases (fetcher : String → FetchOutcome)
    (url : String) (sch : NSchema) (e : JSVal)
    (h : callFbog fetcher url sch = .error e) :
    failureValue (fetcher url) = some e ∨ ∃ msg, e = errorObj msg := by
  rcases ho : fetcher url with ⟨ok, data⟩ | v
  · cases ok
    · rw [callFbog, ho] at h
      simp at h
      left
      simp [failureValue, h]
    · rw [callFbog, ho] at h
      simp at h
      split at h
      · right
        exact ⟨_, (Except.error.inj h).symm⟩
      · split at h
        · right
          exact ⟨_, (Except.error.inj h).symm⟩
        · exact absurd h (by simp)
  · rw [callFbog, ho] at h
    simp at h
    left
    simp [failureValue, h]

/-! ### Concrete fixtures for witnesses and counterexamples -/

/-- A continuation that returns `undefined` for every action. -/
def nextNoop : Action → JSVal := fun _ => .undefined

/-- A well-formed `types` triple. -/
def typesRSF : JSVal := .arr [.str "REQ", .str "OK", .str "FAIL"]

/-- A valid descriptor: string endpoint, exported schema, three types. -/
def descriptor0 : CallDescriptor := ⟨.valE (.str "/graph"), Schemas.EVENT, typesRSF⟩

/-- An action carrying `descriptor0` plus one ordinary field. -/
def action0 : Action := ⟨[("payload", .str "p")], .present descriptor0⟩

/-- An action without the marker key. -/
def actionPlain : Action := ⟨[("type", .str "X")], .absent⟩

/-- An action whose marker attribute is present but holds `undefined`. -/
def actionUndefMarker : Action := ⟨[("type", .str "X")], .presentUndefined⟩

/-- A descriptor whose `types` has length 2. -/
def descriptorTypes2 : CallDescriptor :=
  ⟨.valE (.str "/graph"), Schemas.EVENT, .arr [.str "REQ", .str "OK"]⟩

/-- An action carrying `descriptorTypes2`. -/
def actionTypes2 : Action := ⟨[], .present descriptorTypes2⟩

/-- A descriptor with every field defective (endpoint `null`, schema falsy,
`types` not an array). -/
def descriptorAllBad : CallDescriptor := ⟨.valE .null, .prim .undefined, .num 0⟩

/-- An action carrying `descriptorAllBad`. -/
def actionAllBad : Action := ⟨[], .present descriptorAllBad⟩

/-- A descriptor with a good endpoint but falsy schema and malformed
`types`. -/
def descriptorBadSchema : CallDescriptor :=
  ⟨.valE (.str "/graph"), .prim .undefined, .num 0⟩

/-- An action carrying `descriptorBadSchema`. -/
def actionBadSchema : Action := ⟨[], .present descriptorBadSchema⟩

/-- A descriptor whose endpoint is a function of the state. -/
def descriptorFn : CallDescriptor :=
  ⟨.fnE (fun st => getProp st "url"), Schemas.EVENT, typesRSF⟩

/-- An action carrying `descriptorFn`. -/
def actionFn : Action := ⟨[], .present descriptorFn⟩

/-- A state snapshot holding the endpoint for `descriptorFn`. -/
def stateFn : JSVal := .obj [("url", .str "/me")]

/-- A fetch that rejects with `null`. -/
def fetchRejNull : String → FetchOutcome := fun _ => .rejected .null

/-- A fetch that rejects with `undefined` (`Promise.reject()`). -/
def fetchRejUndefined : String → FetchOutcome := fun _ => .rejected .undefined

/-- A fetch resolving with `{ok: false, data: null}`. -/
def fetchNotOkNull : String → FetchOutcome := fun _ => .resolved false .null

/-- A fetch resolving with `{ok: false, data: {message: 'boom'}}`. -/
def fetchBoom : String → FetchOutcome :=
  fun _ => .resolved false (.obj [("message", .str "boom")])

/-- A fetch resolving with `{ok: true, data: {id: 7}}`. -/
def fetchOkEvent : String → FetchOutcome :=
  fun _ => .resolved true (.obj [("id", .num 7)])

/-- A fetch resolving with `{ok: false, data: {message: 42}}` — a truthy but
non-string message. -/
def fetchNumMessage : String → FetchOutcome :=
  fun _ => .resolved false (.obj [("message", .num 42)])

/-! ### Claims -/

/-- C5: for every action without a call descriptor under the marker key, the
middleware forwards the action to the next stage unmodified, returns the
continuation's result, and performs no network fetch (the run does not depend
on the fetch capability). -/
theorem mw_passthrough (nxt : Action → JSVal) (fetcher : String → FetchOutcome)
    (state : JSVal) (a : Action)
    (hmk : a.marker = .absent) :
    middlewareRun nxt fetcher state a = .passthrough a (nxt a) ∧
    forwardedActions (middlewareRun nxt fetcher state a) = [a] ∧
    (∀ fetcher2 : String → FetchOutcome,
      middlewareRun nxt fetcher2 state a = middlewareRun nxt fetcher state a) := by
  have hs := middlewareSync_pass_absent state a hmk
  have h1 := middlewareRun_pass nxt fetcher state a hs
  refine ⟨h1, by rw [h1]; rfl, fun f2 => ?_⟩
  rw [middlewareRun_pass nxt f2 state a hs, h1]

/-- C5 witness: the concrete markerless action passes through. -/
theorem mw_passthrough_w :
    middlewareRun nextNoop fetchRejNull .null actionPlain
      = .passthrough actionPlain (nextNoop actionPlain) ∧
    forwardedActions (middlewareRun nextNoop fetchRejNull .null actionPlain)
      = [actionPlain] ∧
    (∀ fetcher2 : String → FetchOutcome,
      middlewareRun nextNoop fetcher2 .null actionPlain
        = middlewareRun nextNoop fetchRejNull .null actionPlain) :=
  mw_passthrough nextNoop fetchRejNull .null actionPlain rfl

/-- C9: an action whose marker attribute is present but holds `undefined` is
treated exactly like an action without the marker key: forwarded unchanged,
no fetch, no derived actions. -/
theorem mw_marker_undefined (nxt : Action → JSVal) (fetcher : String → FetchOutcome)
    (state : JSVal) (a : Action)
    (hmk : a.marker = .presentUndefined) :
    middlewareRun nxt fetcher state a = .passthrough a (nxt a) ∧
    forwardedActions (middlewareRun nxt fetcher state a) = [a] ∧
    (∀ fetcher2 : String → FetchOutcome,
      middlewareRun nxt fetcher2 state a = middlewareRun nxt fetcher state a) := by
  have hs := middlewareSync_pass_presentUndefined state a hmk
  have h1 := middlewareRun_pass nxt fetcher state a hs
  refine ⟨h1, by rw [h1]; rfl, fun f2 => ?_⟩
  rw [middlewareRun_pass nxt f2 state a hs, h1]

/-- C9 witness: the concrete action with a present-but-undefined marker
passes through. -/
theorem mw_marker_undefined_w :
    middlewareRun nextNoop fetchRejNull .null actionUndefMarker
      = .passthrough actionUndefMarker (nextNoop actionUndefMarker) ∧
    forwardedActions (middlewareRun nextNoop fetchRejNull .null actionUndefMarker)
      = [actionUndefMarker] ∧
    (∀ fetcher2 : String → FetchOutcome,
      middlewareRun nextNoop fetcher2 .null actionUndefMarker
        = middlewareRun nextNoop fetchRejNull .null actionUndefMarker) :=
  mw_marker_undefined nextNoop fetchRejNull .null actionUndefMarker rfl

/-- C7: for every call descriptor whose `types` is not an array of exactly
three strings, the middleware throws a configuration fault synchronously and
forwards no action at all. -/
theorem mw_types_validation (nxt : Action → JSVal) (fetcher : String → FetchOutcome)
    (state : JSVal) (a : Action) (c : CallDescriptor)
    (hmk : a.marker = .present c)
    (hty : typesWellFormed c.types = false) :
    (∃ msg, middlewareRun nxt fetcher state a = .thrown msg) ∧
    forwardedActions (middlewareRun nxt fetcher state a) = [] := by
  obtain ⟨msg, hmsg⟩ := middlewareSync_throw_types state a c hmk hty
  have h := middlewareRun_throw nxt fetcher state a msg hmsg
  exact ⟨⟨msg, h⟩, by rw [h]; rfl⟩

/-- C7 witness: a `types` of length 2 throws synchronously with nothing
forwarded. -/
theorem mw_types_validation_w :
    (∃ msg, middlewareRun nextNoop fetchRejNull .null actionTypes2 = .thrown msg) ∧
    forwardedActions (middlewareRun nextNoop fetchRejNull .null actionTypes2) = [] :=
  mw_types_validation nextNoop fetchRejNull .null actionTypes2 descriptorTypes2 rfl rfl

/-- C10: descriptor validation runs in source order — a non-string resolved
endpoint throws the endpoint error whatever the schema and types hold, and a
falsy schema throws the schema error whatever the types hold. -/
theorem mw_validation_order (nxt : Action → JSVal) (fetcher : String → FetchOutcome)
    (state : JSVal) (a : Action) (c : CallDescriptor)
    (hmk : a.marker = .present c) :
    (isStr (resolveEndpoint state c.endpoint).1 = false →
      middlewareRun nxt fetcher state a
        = .thrown "Specify a string endpoint URL.") ∧
    (∀ url, (resolveEndpoint state c.endpoint).1 = .str url →
      jsTruthy (schemaVal c.schema) = false →
      middlewareRun nxt fetcher state a
        = .thrown "Specify one of the exported Schemas.") := by
  constructor
  · intro hep
    exact middlewareRun_throw nxt fetcher state a _
      (middlewareSync_throw_endpoint state a c hmk hep)
  · intro url hep hsch
    exact middlewareRun_throw nxt fetcher state a _
      (middlewareSync_throw_schema state a c url hmk hep hsch)

/-- C10 witness: with every field defective the endpoint error wins; with a
good endpoint but falsy schema and malformed types the schema error wins. -/
theorem mw_validation_order_w :
    middlewareRun nextNoop fetchRejNull .null actionAllBad
      = .thrown "Specify a string endpoint URL." ∧
    middlewareRun nextNoop fetchRejNull .null actionBadSchema
      = .thrown "Specify one of the exported Schemas." :=
  ⟨(mw_validation_order nextNoop fetchRejNull .null actionAllBad
      descriptorAllBad rfl).1 rfl,
   (mw_validation_order nextNoop fetchRejNull .null actionBadSchema
      descriptorBadSchema rfl).2 "/graph" rfl rfl⟩

/-- C6: a function-valued endpoint is invoked exactly once on the current
state snapshot; a string return value becomes the fetch target (the run only
consults the fetch capability at that string), and a non-string return value
throws the endpoint configuration error synchronously. -/
theorem mw_endpoint_fn (state : JSVal) (a : Action) (c : CallDescriptor)
    (f : JSVal → JSVal)
    (hmk : a.marker = .present c)
    (hf : c.endpoint = .fnE f) :
    resolveEndpoint state c.endpoint = (f state, 1) ∧
    (∀ s rT sT fT, f state = .str s →
      jsTruthy (schemaVal c.schema) = true →
      c.types = .arr [.str rT, .str sT, .str fT] →
      middlewareSync state a = .proceed s c.schema rT sT fT) ∧
    (∀ s rT sT fT (nxt : Action → JSVal) (fetcher1 fetcher2 : String → FetchOutcome),
      f state = .str s →
      jsTruthy (schemaVal c.schema) = true →
      c.types = .arr [.str rT, .str sT, .str fT] →
      fetcher1 s = fetcher2 s →
      middlewareRun nxt fetcher1 state a = middlewareRun nxt fetcher2 state a) ∧
    (isStr (f state) = false →
      middlewareSync state a = .syncThrow "Specify a string endpoint URL.") := by
  have hres : resolveEndpoint state c.endpoint = (f state, 1) := by
    rw [hf, resolveEndpoint]
  refine ⟨hres, ?_, ?_, ?_⟩
  · intro s rT sT fT hse hsch hty
    exact middlewareSync_proceed state a c s rT sT fT hmk (by rw [hres, hse]) hsch hty
  · intro s rT sT fT nxt fetcher1 fetcher2 hse hsch hty hagree
    have hs := middlewareSync_proceed state a c s rT sT fT hmk (by rw [hres, hse]) hsch hty
    have hc := callFbog_congr fetcher1 fetcher2 s c.schema hagree
    simp [middlewareRun, hs, hc]
  · intro hns
    exact middlewareSync_throw_endpoint state a c hmk (by rw [hres]; exact hns)

/-- C6 witness: the function endpoint reads the url out of the state and the
validation proceeds with it as the fetch target. -/
theorem mw_endpoint_fn_w :
    resolveEndpoint stateFn descriptorFn.endpoint = (.str "/me", 1) ∧
    middlewareSync stateFn actionFn = .proceed "/me" Schemas.EVENT "REQ" "OK" "FAIL" := by
  have h := mw_endpoint_fn stateFn actionFn descriptorFn
    (fun st => getProp st "url") rfl rfl
  exact ⟨h.1, h.2.1 "/me" "REQ" "OK" "FAIL" rfl rfl rfl⟩

/-- C1 (counterexample): with the valid descriptor `descriptor0` and a fetch
that rejects with `null`, the failure handler throws reading `.message`, so
only the request action is forwarded — one action, not the two the claim
demands. -/
theorem mw_forward_protocol_cex :
    forwardedActions (middlewareRun nextNoop fetchRejNull .null action0)
      = [actionWith action0 [("type", .str "REQ")]] ∧
    (forwardedActions (middlewareRun nextNoop fetchRejNull .null action0)).length = 1 :=
  ⟨rfl, rfl⟩

/-- C1 (amended): for a valid call descriptor the first forwarded action is
always the request action, synchronously and independent of the fetch
outcome; at most one terminal action follows, typed with the success or
failure type; a terminal action is missing exactly when the failure value is
`null`/`undefined` (where reading `.message` throws). -/
theorem mw_forward_protocol (nxt : Action → JSVal) (fetcher : String → FetchOutcome)
    (state : JSVal) (a : Action) (c : CallDescriptor) (url rT sT fT : String)
    (hmk : a.marker = .present c)
    (hep : (resolveEndpoint state c.endpoint).1 = .str url)
    (hsch : jsTruthy (schemaVal c.schema) = true)
    (hty : c.types = .arr [.str rT, .str sT, .str fT]) :
    (∀ fetcher2 : String → FetchOutcome,
      (forwardedActions (middlewareRun nxt fetcher2 state a)).head?
        = some (actionWith a [("type", .str rT)])) ∧
    (∀ t, terminalOf (middlewareRun nxt fetcher state a) = some t →
      forwardedActions (middlewareRun nxt fetcher state a)
        = [actionWith a [("type", .str rT)], t] ∧
      (t.getF "type" = .str sT ∨ t.getF "type" = .str fT)) ∧
    (terminalOf (middlewareRun nxt fetcher state a) = none →
      forwardedActions (middlewareRun nxt fetcher state a)
        = [actionWith a [("type", .str rT)]]) ∧
    (terminalOf (middlewareRun nxt fetcher state a) = none ↔
      ∃ e, callFbog fetcher url c.schema = .error e ∧ isNullOrUndefined e = true) := by
  have hs := middlewareSync_proceed state a c url rT sT fT hmk hep hsch hty
  have hhead : ∀ f2 : String → FetchOutcome,
      (forwardedActions (middlewareRun nxt f2 state a)).head?
        = some (actionWith a [("type", .str rT)]) := by
    intro f2
    rcases hcb : callFbog f2 url c.schema with e | response
    · cases he : isNullOrUndefined e
      · rw [middlewareRun_failure nxt f2 state a url c.schema rT sT fT e hs hcb he]
        rfl
      · rw [middlewareRun_nullError nxt f2 state a url c.schema rT sT fT e hs hcb he]
        rfl
    · rw [middlewareRun_success nxt f2 state a url c.schema rT sT fT response hs hcb]
      rfl
  refine ⟨hhead, ?_⟩
  rcases hcb : callFbog fetcher url c.schema with e | response
  · cases he : isNullOrUndefined e
    · rw [middlewareRun_failure nxt fetcher state a url c.schema rT sT fT e hs hcb he]
      refine ⟨?_, ?_, ?_⟩
      · intro t ht
        simp only [terminalOf, Option.some.injEq] at ht
        subst ht
        refine ⟨rfl, Or.inr ?_⟩
        rw [getF_actionWith]
        simp [jlookup]
      · intro ht
        simp [terminalOf] at ht
      · constructor
        · intro ht
          simp [terminalOf] at ht
        · rintro ⟨e2, he2, hnu⟩
          obtain rfl := Except.error.inj he2
          rw [he] at hnu
          exact Bool.noConfusion hnu
    · rw [middlewareRun_nullError nxt fetcher state a url c.schema rT sT fT e hs hcb he]
      refine ⟨?_, ?_, ?_⟩
      · intro t ht
        simp [terminalOf] at ht
      · intro _
        rfl
      · exact ⟨fun _ => ⟨e, rfl, he⟩, fun _ => rfl⟩
  · rw [middlewareRun_success nxt fetcher state a url c.schema rT sT fT response hs hcb]
    refine ⟨?_, ?_, ?_⟩
    · intro t ht
      simp only [terminalOf, Option.some.injEq] at ht
      subst ht
      refine ⟨rfl, Or.inl ?_⟩
      rw [getF_actionWith]
      simp [jlookup]
    · intro ht
      simp [terminalOf] at ht
    · constructor
      · intro ht
        simp [terminalOf] at ht
      · rintro ⟨e2, he2, _⟩
        exact Except.noConfusion he2

/-- C1 witness: a not-ok envelope with a message object gives the full
request-then-failure pair. -/
theorem mw_forward_protocol_w :
    (forwardedActions (middlewareRun nextNoop fetchBoom .null action0)).head?
      = some (actionWith action0 [("type", .str "REQ")]) ∧
    (∀ t, terminalOf (middlewareRun nextNoop fetchBoom .null action0) = some t →
      forwardedActions (middlewareRun nextNoop fetchBoom .null action0)
        = [actionWith action0 [("type", .str "REQ")], t] ∧
      (t.getF "type" = .str "OK" ∨ t.getF "type" = .str "FAIL")) := by
  have h := mw_forward_protocol nextNoop fetchBoom .null action0 descriptor0
    "/graph" "REQ" "OK" "FAIL" rfl rfl rfl rfl
  exact ⟨h.1 fetchBoom, h.2.1⟩

/-- C3 (counterexample): a fetch rejected with `undefined` — a rejection
with no message available — forwards no failure action at all, so no
forwarded action carries the placeholder error string. -/
theorem mw_error_message_cex :
    terminalOf (middlewareRun nextNoop fetchRejUndefined .null action0) = none ∧
    forwardedActions (middlewareRun nextNoop fetchRejUndefined .null action0)
      = [actionWith action0 [("type", .str "REQ")]] ∧
    (actionWith action0 [("type", .str "REQ")]).getF "error" = .undefined :=
  ⟨rfl, rfl, rfl⟩

/-- C3 (amended): whenever the failure value (rejection value or not-ok
`data`) is not `null`/`undefined`, the forwarded failure action's `error`
equals the failure's `message` when that is truthy and the placeholder
string "Something bad happened" otherwise; for a `null`/`undefined` failure
value the handler itself throws and no failure action is forwarded. -/
theorem mw_error_message (nxt : Action → JSVal) (fetcher : String → FetchOutcome)
    (state : JSVal) (a : Action) (c : CallDescriptor) (url rT sT fT : String)
    (v : JSVal)
    (hmk : a.marker = .present c)
    (hep : (resolveEndpoint state c.endpoint).1 = .str url)
    (hsch : jsTruthy (schemaVal c.schema) = true)
    (hty : c.types = .arr [.str rT, .str sT, .str fT])
    (hv : failureValue (fetcher url) = some v)
    (hnn : isNullOrUndefined v = false) :
    ∃ t, terminalOf (middlewareRun nxt fetcher state a) = some t ∧
      t.getF "type" = .str fT ∧
      (jsTruthy (getProp v "message") = true → t.getF "error" = getProp v "message") ∧
      (jsTruthy (getProp v "message") = false →
        t.getF "error" = .str "Something bad happened") := by
  have hs := middlewareSync_proceed state a c url rT sT fT hmk hep hsch hty
  have hcb := callFbog_error_of_failureValue fetcher url c.schema v hv
  have hrun := middlewareRun_failure nxt fetcher state a url c.schema rT sT fT v hs hcb hnn
  refine ⟨_, by rw [hrun]; rfl, ?_, ?_, ?_⟩
  · rw [getF_actionWith]
    simp [jlookup]
  · intro htr
    rw [getF_actionWith]
    simp [jlookup, jsOr, htr]
  · intro hfa
    rw [getF_actionWith]
    simp [jlookup, jsOr, hfa]

/-- C3 witness: the envelope `{ok: false, data: {message: 'boom'}}` yields a
failure action whose `error` is the message `'boom'`. -/
theorem mw_error_message_w :
    ∃ t, terminalOf (middlewareRun nextNoop fetchBoom .null action0) = some t ∧
      t.getF "type" = .str "FAIL" ∧
      (jsTruthy (getProp (.obj [("message", .str "boom")]) "message") = true →
        t.getF "error" = getProp (.obj [("message", .str "boom")]) "message") ∧
      (jsTruthy (getProp (.obj [("message", .str "boom")]) "message") = false →
        t.getF "error" = .str "Something bad happened") :=
  mw_error_message nextNoop fetchBoom .null action0 descriptor0 "/graph"
    "REQ" "OK" "FAIL" (.obj [("message", .str "boom")]) rfl rfl rfl rfl rfl rfl

/-- C4 (counterexample): for the envelope `{ok: false, data: null}` the
failure handler throws reading `.message` of `null`, so the asynchronous
handle rejects instead of settling. -/
theorem mw_settles_cex :
    settles (middlewareRun nextNoop fetchNotOkNull .null action0) = false ∧
    middlewareRun nextNoop fetchNotOkNull .null action0
      = .rejectedRun (actionWith action0 [("type", .str "REQ")]) :=
  ⟨rfl, rfl⟩

/-- C4 (amended): for a valid call descriptor the asynchronous handle
settles successfully whenever the failure value (rejection value or not-ok
`data`), if any, is not `null`/`undefined`; for `null`/`undefined` it
rejects. -/
theorem mw_settles (nxt : Action → JSVal) (fetcher : String → FetchOutcome)
    (state : JSVal) (a : Action) (c : CallDescriptor) (url rT sT fT : String)
    (hmk : a.marker = .present c)
    (hep : (resolveEndpoint state c.endpoint).1 = .str url)
    (hsch : jsTruthy (schemaVal c.schema) = true)
    (hty : c.types = .arr [.str rT, .str sT, .str fT])
    (hsafe : ∀ v, failureValue (fetcher url) = some v → isNullOrUndefined v = false) :
    settles (middlewareRun nxt fetcher state a) = true := by
  have hs := middlewareSync_proceed state a c url rT sT fT hmk hep hsch hty
  rcases hcb : callFbog fetcher url c.schema with e | response
  · have he : isNullOrUndefined e = false := by
      rcases callFbog_error_cases fetcher url c.schema e hcb with hfv | ⟨msg, hmsg⟩
      · exact hsafe e hfv
      · rw [hmsg]
        rfl
    rw [middlewareRun_failure nxt fetcher state a url c.schema rT sT fT e hs hcb he]
    rfl
  · rw [middlewareRun_success nxt fetcher state a url c.schema rT sT fT response hs hcb]
    rfl

/-- C4 witness: a successful envelope settles. -/
theorem mw_settles_w :
    settles (middlewareRun nextNoop fetchOkEvent .null action0) = true := by
  refine mw_settles nextNoop fetchOkEvent .null action0 descriptor0
    "/graph" "REQ" "OK" "FAIL" rfl rfl rfl rfl ?_
  intro v hv
  simp [fetchOkEvent, failureValue] at hv

/-- C8 (counterexample): the envelope `{ok: false, data: {message: 42}}`
forwards a failure action whose `error` field is the number `42`, not a
string as the claim's `{type: failureType, error: string}` shape demands. -/
theorem mw_forward_shape_cex :
    ∃ t, terminalOf (middlewareRun nextNoop fetchNumMessage .null action0) = some t ∧
      t.getF "error" = .num 42 ∧
      isStr (t.getF "error") = false :=
  ⟨actionWith action0 [("type", .str "FAIL"), ("error", .num 42)], rfl, rfl, rfl⟩

/-- C8 (amended): every action forwarded for an intercepted call is the
original action merged with one of the three payloads (`{type: requestType}`,
`{response, type: successType}`, or `{type: failureType, error}` — the error
value being the failure's message, not necessarily a string, or the
placeholder string), with the call-descriptor slot stripped; fields outside
the payload keys read exactly as in the original action, and payload keys
read the payload's value. -/
theorem mw_forward_shape (nxt : Action → JSVal) (fetcher : String → FetchOutcome)
    (state : JSVal) (a : Action) (c : CallDescriptor) (url rT sT fT : String)
    (hmk : a.marker = .present c)
    (hep : (resolveEndpoint state c.endpoint).1 = .str url)
    (hsch : jsTruthy (schemaVal c.schema) = true)
    (hty : c.types = .arr [.str rT, .str sT, .str fT]) :
    ∀ fwd ∈ forwardedActions (middlewareRun nxt fetcher state a),
      ∃ data, fwd = actionWith a data ∧
        fwd.marker = .absent ∧
        (data = [("type", .str rT)] ∨
         (∃ response, callFbog fetcher url c.schema = .ok response ∧
            data = [("response", response), ("type", .str sT)]) ∨
         (∃ err, data = [("type", .str fT), ("error", err)])) ∧
        (∀ k, jlookup data k = none → fwd.getF k = a.getF k) ∧
        (∀ k v, jlookup data k = some v → fwd.getF k = v) := by
  have hs := middlewareSync_proceed state a c url rT sT fT hmk hep hsch hty
  have hkeep : ∀ data k, jlookup data k = none →
      (actionWith a data).getF k = a.getF k := by
    intro data k h
    rw [getF_actionWith, h]
  have hover : ∀ data k v, jlookup data k = some v →
      (actionWith a data).getF k = v := by
    intro data k v h
    rw [getF_actionWith, h]
  intro fwd hfwd
  rcases hcb : callFbog fetcher url c.schema with e | response
  · cases he : isNullOrUndefined e
    · rw [middlewareRun_failure nxt fetcher state a url c.schema rT sT fT e hs hcb he] at hfwd
      simp only [forwardedActions, List.mem_cons, List.not_mem_nil, or_false] at hfwd
      rcases hfwd with rfl | rfl
      · exact ⟨_, rfl, rfl, Or.inl rfl, hkeep _, hover _⟩
      · exact ⟨_, rfl, rfl, Or.inr (Or.inr ⟨_, rfl⟩), hkeep _, hover _⟩
    · rw [middlewareRun_nullError nxt fetcher state a url c.schema rT sT fT e hs hcb he] at hfwd
      simp only [forwardedActions, List.mem_cons, List.not_mem_nil, or_false] at hfwd
      subst hfwd
      exact ⟨_, rfl, rfl, Or.inl rfl, hkeep _, hover _⟩
  · rw [middlewareRun_success nxt fetcher state a url c.schema rT sT fT response hs hcb] at hfwd
    simp only [forwardedActions, List.mem_cons, List.not_mem_nil, or_false] at hfwd
    rcases hfwd with rfl | rfl
    · exact ⟨_, rfl, rfl, Or.inl rfl, hkeep _, hover _⟩
    · exact ⟨_, rfl, rfl, Or.inr (Or.inl ⟨response, rfl, rfl⟩), hkeep _, hover _⟩

/-- C8 witness: the request action forwarded for `action0` has the request
shape, keeps the `payload` field, and has no marker. -/
theorem mw_forward_shape_w :
    ∃ data, actionWith action0 [("type", .str "REQ")] = actionWith action0 data ∧
      (actionWith action0 [("type", .str "REQ")]).marker = .absent ∧
      (data = [("type", .str "REQ")] ∨
       (∃ response, callFbog fetchBoom "/graph" descriptor0.schema = .ok response ∧
          data = [("response", response), ("type", .str "OK")]) ∨
       (∃ err, data = [("type", .str "FAIL"), ("error", err)])) ∧
      (∀ k, jlookup data k = none →
        (actionWith action0 [("type", .str "REQ")]).getF k = action0.getF k) ∧
      (∀ k v, jlookup data k = some v →
        (actionWith action0 [("type", .str "REQ")]).getF k = v) :=
  mw_forward_shape nextNoop fetchBoom .null action0 descriptor0 "/graph"
    "REQ" "OK" "FAIL" rfl rfl rfl rfl
    (actionWith action0 [("type", .str "REQ")]) (List.mem_cons_self _ _)

/-- The raw JSON of C2's failing input: a page object with an `id` and a
nested `events` list. -/
def pageInput : JSVal :=
  .obj [("id", .num 1),
        ("events", .arr [.obj [("id", .num 2)], .obj [("id", .num 3)]])]

/-- A valid descriptor using `Schemas.PAGE`. -/
def descriptorPage : CallDescriptor := ⟨.valE (.str "/page"), Schemas.PAGE, typesRSF⟩

/-- An action carrying `descriptorPage`. -/
def actionPage : Action := ⟨[], .present descriptorPage⟩

/-- A fetch resolving with `{ok: true, data: pageInput}`. -/
def fetchPage : String → FetchOutcome := fun _ => .resolved true pageInput

/-- The normalized result the middleware attaches to the success action for
`pageInput` under `Schemas.PAGE`. -/
def pageResponse : JSVal := normalize (camelizeKeys pageInput) Schemas.PAGE

/-- C2: evaluation of the code at the failing input. Because
`pageSchema.define({events: eventSchema})` uses the scalar event schema for a
list, the success action's `response` holds the whole events array under
`entities.events["undefined"]` as an index-keyed record, the page record's
`events` field is `undefined` rather than the ordered id list `[2, 3]`, and
the entity tables are keyed `pages`/`events` (no `page`/`event` entries),
contradicting the claimed flattening. -/
theorem normalize_page_events_bug :
    terminalOf (middlewareRun nextNoop fetchPage .null actionPage)
      = some (actionWith actionPage
          [("response", pageResponse), ("type", .str "OK")]) ∧
    (actionWith actionPage
        [("response", pageResponse), ("type", .str "OK")]).getF "response"
      = pageResponse ∧
    getProp (getProp (getProp pageResponse "entities") "pages") "1"
      = .obj [("id", .num 1), ("events", .undefined)] ∧
    getProp (getProp pageResponse "entities") "events"
      = .obj [("undefined",
          .obj [("0", .obj [("id", .num 2)]), ("1", .obj [("id", .num 3)])])] ∧
    getProp pageResponse "result" = .num 1 ∧
    getProp (getProp pageResponse "entities") "page" = .undefined ∧
    getProp (getProp pageResponse "entities") "event" = .undefined := by
  refine ⟨rfl, rfl, ?_, ?_, rfl, rfl, rfl⟩ <;> rfl

end CommunityEv
